import Mathlib

/-!
Verification of the parallel chunked transfer engine of the Azure Storage
JavaScript SDK (file src/blob/lib/highlevel.node.ts).

The development shallowly embeds the three high-level operations
UploadResetableStreamToBlockBlob, DownloadBlobToBuffer and
UploadStreamToBlockBlob.  JavaScript numbers are modelled as Int (all the
quantities involved stay far below 2 to the 53, where number arithmetic on
integers is exact).  Remote calls (stageBlock, commitBlockList, upload,
getProperties, download) are external collaborators: their outcomes are
parameters of the embedding and the calls themselves are recorded as events.
The concurrent execution of chunk tasks by the batch executor is modelled as
a small-step machine driven by an explicit schedule, so that properties can
be settled for every interleaving of task starts and task completions.

The options objects are mutated in place by the TypeScript code; the
embedding threads them through explicitly, and the final options record
models the state of the caller-supplied object when the call returns.
-/

/-- Error values thrown by the code; the message string of the Error object.
Messages that contain punctuation not available here are paraphrased;
no claim depends on the exact message text. -/
abbrev Err := String

/-- Modelled from the spec: constant BLOCK_BLOB_MAX_UPLOAD_BLOB_BYTES of
src/blob/lib/utils/constants (not under src); the single-shot upload limit,
256 MB per the doc comments of highlevel.node.ts. -/
def BLOCK_BLOB_MAX_UPLOAD_BLOB_BYTES : Int := 268435456

/-- Modelled from the spec: constant BLOCK_BLOB_MAX_STAGE_BLOCK_BYTES of
src/blob/lib/utils/constants (not under src); the service maximum for one
staged block, 100 MB. -/
def BLOCK_BLOB_MAX_STAGE_BLOCK_BYTES : Int := 104857600

/-- Modelled from the spec: constant BLOCK_BLOB_MAX_BLOCKS of
src/blob/lib/utils/constants (not under src); the service maximum block
count, 50000 (quoted in the error message at lines 127-130). -/
def BLOCK_BLOB_MAX_BLOCKS : Int := 50000

/-- Modelled from the spec: constant BLOB_DEFAULT_DOWNLOAD_BLOCK_BYTES of
src/blob/lib/utils/constants (not under src); the default transfer block
size and minimum efficient block size, 4 MB. -/
def BLOB_DEFAULT_DOWNLOAD_BLOCK_BYTES : Int := 4194304

/-- Math.floor of a JavaScript division a / b with b positive: Euclidean
division of Int rounds toward minus infinity for positive divisors. -/
def jsFloorDiv (a b : Int) : Int := a / b

/-- Math.ceil of a JavaScript division a / b with b positive. -/
def jsCeilDiv (a b : Int) : Int := -((-a) / b)

theorem lt_jsCeilDiv_iff {a b : Int} (hb : 0 < b) (k : Int) :
    k < jsCeilDiv a b ↔ k * b < a := by
  unfold jsCeilDiv
  constructor
  · intro h
    have hneg : (-k) * b = -(k * b) := by ring
    have h2 : (-a) / b < -k := by omega
    have := (Int.ediv_lt_iff_lt_mul hb).mp h2
    omega
  · intro h
    have hneg : (-k) * b = -(k * b) := by ring
    have h2 : -a < (-k) * b := by omega
    have := (Int.ediv_lt_iff_lt_mul hb).mpr h2
    omega

theorem jsCeilDiv_le_iff {a b : Int} (hb : 0 < b) (k : Int) :
    jsCeilDiv a b ≤ k ↔ a ≤ k * b := by
  have h := lt_jsCeilDiv_iff hb (a := a) k
  constructor
  · intro hle
    by_contra hc
    exact absurd (h.mpr (by omega)) (by omega)
  · intro hle
    by_contra hc
    exact absurd (h.mp (by omega)) (by omega)

theorem jsCeilDiv_sub_divisor {a b : Int} (hb : 0 < b) :
    jsCeilDiv (a - b) b = jsCeilDiv a b - 1 := by
  unfold jsCeilDiv
  have hne : b ≠ 0 := by omega
  have : (-(a - b)) = (-a) + 1 * b := by ring
  rw [this, Int.add_mul_ediv_right _ _ hne]
  ring

/-- Modelled from the spec: generateBlockID of src/blob/lib/utils/utils.common
(not under src).  A deterministic, order-preserving, reversible token for a
chunk index: the decimal representation padded with zeros to a fixed width. -/
def generateBlockID (blockIndex : Nat) : String :=
  let s := toString blockIndex
  String.mk (List.replicate (48 - s.length) '0') ++ s

/-- Options of UploadFileToBlockBlob and UploadResetableStreamToBlockBlob
(interface IUploadToBlockBlobOptions).  Fields whose contents are opaque to
the orchestrator are modelled by Option Unit: only presence matters.
The TypeScript code mutates the caller-supplied object in place. -/
structure UploadOptions where
  blockSize : Option Int := none
  blobHTTPHeaders : Option Unit := none
  blobAccessConditions : Option Unit := none
  parallelism : Option Nat := none
deriving Repr, DecidableEq

/-- Lines 92-119 of highlevel.node.ts: option validation and default filling
of UploadResetableStreamToBlockBlob, up to but not including the single-shot
versus chunked decision.  The result is the mutated options object or the
thrown error.  The truthiness test if (not options.blockSize) maps undefined
and 0 both to 0, which getD 0 reproduces. -/
def uploadValidate (size : Int) (o : UploadOptions) : Except Err UploadOptions :=
  let bs0 : Int := o.blockSize.getD 0
  if bs0 < 0 ∨ bs0 > BLOCK_BLOB_MAX_UPLOAD_BLOB_BYTES then
    .error ("blockSize option must be >= 0 and <= " ++ toString BLOCK_BLOB_MAX_UPLOAD_BLOB_BYTES)
  else if bs0 = 0 ∧ size > BLOCK_BLOB_MAX_STAGE_BLOCK_BYTES * BLOCK_BLOB_MAX_BLOCKS then
    .error (toString size ++ " is too larger to upload to a block blob.")
  else
    let bs1 : Int :=
      if bs0 = 0 ∧ size > BLOCK_BLOB_MAX_UPLOAD_BLOB_BYTES then
        max (jsCeilDiv size BLOCK_BLOB_MAX_BLOCKS) BLOB_DEFAULT_DOWNLOAD_BLOCK_BYTES
      else bs0
    .ok { o with blockSize := some bs1,
                 blobHTTPHeaders := some (o.blobHTTPHeaders.getD ()),
                 blobAccessConditions := some (o.blobAccessConditions.getD ()) }

/-- Line 125 of highlevel.node.ts: numBlocks = Math.floor((size - 1) / blockSize) + 1. -/
def numBlocksI (size bs : Int) : Int := jsFloorDiv (size - 1) bs + 1

/-- Line 141-143: start offset of chunk i. -/
def chunkStart (bs : Int) (i : Nat) : Int := bs * i

/-- Line 142: end offset of chunk i (the last chunk ends at size). -/
def chunkEndU (size bs : Int) (n : Nat) (i : Nat) : Int :=
  if i = n - 1 then size else chunkStart bs i + bs

/-- Line 143: contentLength of chunk i. -/
def contentLength (size bs : Int) (n : Nat) (i : Nat) : Int :=
  chunkEndU size bs n i - chunkStart bs i

/-- One scheduling action of the concurrent execution: the batch executor
starts the next pending task, or the remote stageBlock operation of an
active task resolves (after which the rest of that task body runs). -/
inductive BStep where
  | start : BStep
  | complete : Nat → BStep
deriving Repr, DecidableEq

/-- State of the chunk-task phase of a chunked upload: the Batch cursor and
active set (modelled from the spec, section 4.1, since utils/Batch is not
under src), together with the shared mutable variables of the enclosing
call in highlevel.node.ts: blockList, transferProgress, and the first error
collected by the batch.  completed records which tasks have resolved. -/
structure BatchState where
  cursor : Nat
  active : List Nat
  completed : List Nat
  blockList : List String
  transferProgress : Int
  firstError : Option Err
deriving Repr, DecidableEq

/-- The initial state: lines 133-136 of highlevel.node.ts. -/
def initBatch : BatchState :=
  { cursor := 0, active := [], completed := [], blockList := [],
    transferProgress := 0, firstError := none }

/-- One step of the chunk-task phase.  n is the task count, par the
concurrency cap, clen i the content length of chunk i, stageErr i the
outcome of the remote stageBlock of chunk i (none = success).
A start runs the synchronous prologue of the next task body
(lines 140-144: blockID computed from the loop index, then pushed onto
blockList) before the first await; the spec of the batch executor starts
tasks in insertion order, at most par at a time, and starts nothing after a
failure.  A complete resolves the stageBlock await of an active task
(lines 145-159): on success the task adds its content length to
transferProgress; on failure the batch records the first error.
Steps whose guard fails leave the state unchanged. -/
def batchStep (n par : Nat) (clen : Nat → Int) (stageErr : Nat → Option Err)
    (s : BatchState) : BStep → BatchState
  | .start =>
    if s.cursor < n ∧ s.active.length < par ∧ s.firstError = none then
      { s with cursor := s.cursor + 1,
               active := s.active ++ [s.cursor],
               blockList := s.blockList ++ [generateBlockID s.cursor] }
    else s
  | .complete i =>
    if i ∈ s.active then
      match stageErr i with
      | none =>
        { s with active := s.active.erase i,
                 completed := s.completed ++ [i],
                 transferProgress := s.transferProgress + clen i }
      | some e =>
        { s with active := s.active.erase i,
                 completed := s.completed ++ [i],
                 firstError := if s.firstError = none then some e else s.firstError }
    else s

/-- Run of the chunk-task phase under a schedule. -/
def batchExec (n par : Nat) (clen : Nat → Int) (stageErr : Nat → Option Err)
    (sched : List BStep) : BatchState :=
  sched.foldl (fun s a => batchStep n par clen stageErr s a) initBatch

/-- The batch promise has resolved: every started task has completed, and
either a failure was recorded (remaining tasks are never started) or all n
tasks were started.  Modelled from the spec, section 4.1. -/
def BatchDone (n : Nat) (s : BatchState) : Prop :=
  s.active = [] ∧ (s.firstError.isSome ∨ s.cursor = n)

/-- Result of a modelled high-level upload call, generic in the type of the
options object.  finalOptions is the state of the caller-supplied options
object when the call returns (the TypeScript code mutates it in place);
outcome is the thrown error, none meaning normal resolution;
singleUploadCalls, stageCalls and commitCalls count the remote calls issued;
committedList is the argument of commitBlockList when it was called;
finalBlockList and finalProgress are the last values of the local blockList
and transferProgress variables. -/
structure UploadRun (ω : Type) where
  finalOptions : ω
  outcome : Option Err
  singleUploadCalls : Nat
  stageCalls : Nat
  commitCalls : Nat
  committedList : List String
  finalBlockList : List String
  finalProgress : Int
deriving Repr, DecidableEq

/-- Modelled from the spec: the default concurrency of the batch executor
when options.parallelism is undefined (utils/Batch is not under src). -/
def BATCH_DEFAULT_PARALLELISM : Nat := 5

/-- Lines 85-166 of highlevel.node.ts: UploadResetableStreamToBlockBlob.
size is the blob size; stageErr i is the outcome of the remote stageBlock
of chunk i; singleErr and commitErr the outcomes of the remote single-shot
upload and of commitBlockList; sched drives the concurrent chunk phase.
The function validates and mutates options, issues one whole-blob upload
when size fits the single-shot limit, and otherwise checks the block count
bound, runs one task per chunk through the batch, and commits the block
list only when the batch resolves without error.  The result is meaningful
for schedules that drive the batch to completion (BatchDone); the theorems
below assume it. -/
def UploadResetableStreamToBlockBlob (size : Int) (opts : UploadOptions)
    (stageErr : Nat → Option Err) (singleErr commitErr : Option Err)
    (sched : List BStep) : UploadRun UploadOptions :=
  match uploadValidate size opts with
  | .error e =>
    { finalOptions := opts, outcome := some e, singleUploadCalls := 0,
      stageCalls := 0, commitCalls := 0, committedList := [],
      finalBlockList := [], finalProgress := 0 }
  | .ok o =>
    if size ≤ BLOCK_BLOB_MAX_UPLOAD_BLOB_BYTES then
      { finalOptions := o, outcome := singleErr, singleUploadCalls := 1,
        stageCalls := 0, commitCalls := 0, committedList := [],
        finalBlockList := [], finalProgress := 0 }
    else
      let bs : Int := o.blockSize.getD 0
      let nI : Int := numBlocksI size bs
      if nI > BLOCK_BLOB_MAX_BLOCKS then
        { finalOptions := o, outcome := some ("The buffer size is too big or the BlockSize is too small;" ++
            "the number of blocks must be <= " ++ toString BLOCK_BLOB_MAX_BLOCKS),
          singleUploadCalls := 0, stageCalls := 0, commitCalls := 0,
          committedList := [], finalBlockList := [], finalProgress := 0 }
      else
        let n : Nat := nI.toNat
        let par : Nat := o.parallelism.getD BATCH_DEFAULT_PARALLELISM
        let s := batchExec n par (contentLength size bs n) stageErr sched
        if s.firstError.isSome then
          { finalOptions := o, outcome := s.firstError, singleUploadCalls := 0,
            stageCalls := s.cursor, commitCalls := 0, committedList := [],
            finalBlockList := s.blockList, finalProgress := s.transferProgress }
        else
          { finalOptions := o, outcome := commitErr, singleUploadCalls := 0,
            stageCalls := s.cursor, commitCalls := 1, committedList := s.blockList,
            finalBlockList := s.blockList, finalProgress := s.transferProgress }

/-- Options of UploadStreamToBlockBlob (interface
IUploadStreamToBlockBlobOptions, lines 259-290). -/
structure StreamOptions where
  blobHTTPHeaders : Option Unit := none
  accessConditions : Option Unit := none
deriving Repr, DecidableEq

/-- Lines 320-325 of highlevel.node.ts: default filling of the options of
UploadStreamToBlockBlob; the caller-supplied object is mutated in place. -/
def streamFillOptions (o : StreamOptions) : StreamOptions :=
  { blobHTTPHeaders := some (o.blobHTTPHeaders.getD ()),
    accessConditions := some (o.accessConditions.getD ()) }

/-- Lines 312-359 of highlevel.node.ts: UploadStreamToBlockBlob.  The
BufferScheduler (utils/BufferScheduler, not under src) is modelled from the
spec, section 4.2: it cuts the stream into bufLens.length buffers, in stream
order, and dispatches each filled buffer to the outgoing handler under a
concurrency cap of Math.ceil((maxBuffers / 4) * 3).  The handler body
(lines 335-349) has the same shape as a chunk task: it reads and increments
the shared blockNum counter and pushes generateBlockID(blockNum) onto
blockList synchronously, then awaits stageBlock, then adds the buffer
length to transferProgress; so the same machine models the execution, with
the k-th dispatched buffer as task k and clen k its length.  commitBlockList
runs only when the scheduler resolves without error. -/
def UploadStreamToBlockBlob (bufLens : List Int) (maxBuffers : Nat)
    (opts : StreamOptions) (stageErr : Nat → Option Err) (commitErr : Option Err)
    (sched : List BStep) : UploadRun StreamOptions :=
  let o := streamFillOptions opts
  let n : Nat := bufLens.length
  let par : Nat := (jsCeilDiv (3 * (maxBuffers : Int)) 4).toNat
  let s := batchExec n par (fun i => bufLens.getD i 0) stageErr sched
  if s.firstError.isSome then
    { finalOptions := o, outcome := s.firstError, singleUploadCalls := 0,
      stageCalls := s.cursor, commitCalls := 0, committedList := [],
      finalBlockList := s.blockList, finalProgress := s.transferProgress }
  else
    { finalOptions := o, outcome := commitErr, singleUploadCalls := 0,
      stageCalls := s.cursor, commitCalls := 1, committedList := s.blockList,
      finalBlockList := s.blockList, finalProgress := s.transferProgress }

/-- Invariants of the chunk-task phase, maintained by every scheduling step:
the cursor never passes the task count; the completed and active tasks are
exactly the started ones (the first cursor indices); blockList holds the
IDs of the started tasks, pushed at task start, in start order;
transferProgress is the sum of the content lengths of the tasks whose
remote stageBlock succeeded; the batch error is absent exactly when no
completed task failed, and when present it is the error of some failed
completed task. -/
structure BatchInv (n : Nat) (clen : Nat → Int) (stageErr : Nat → Option Err)
    (s : BatchState) : Prop where
  cursor_le : s.cursor ≤ n
  perm : (s.completed ++ s.active).Perm (List.range s.cursor)
  blockList_eq : s.blockList = (List.range s.cursor).map generateBlockID
  progress_eq : s.transferProgress =
    ((s.completed.filter fun i => (stageErr i).isNone).map clen).sum
  error_iff : s.firstError = none ↔ ∀ i ∈ s.completed, stageErr i = none
  error_mem : ∀ e, s.firstError = some e → ∃ i ∈ s.completed, stageErr i = some e

theorem batchInv_init (n : Nat) (clen : Nat → Int) (stageErr : Nat → Option Err) :
    BatchInv n clen stageErr initBatch := by
  refine ⟨Nat.zero_le _, by simp [initBatch], by simp [initBatch],
    by simp [initBatch], by simp [initBatch], by simp [initBatch]⟩

theorem batchInv_step (n par : Nat) (clen : Nat → Int) (stageErr : Nat → Option Err)
    (s : BatchState) (a : BStep) (h : BatchInv n clen stageErr s) :
    BatchInv n clen stageErr (batchStep n par clen stageErr s a) := by
  cases a with
  | start =>
    show BatchInv n clen stageErr (if s.cursor < n ∧ s.active.length < par ∧ s.firstError = none then _ else s)
    by_cases hg : s.cursor < n ∧ s.active.length < par ∧ s.firstError = none
    · rw [if_pos hg]
      refine ⟨hg.1, ?_, ?_, h.progress_eq, h.error_iff, h.error_mem⟩
      · have hp := h.perm.append_right [s.cursor]
        dsimp only
        rw [List.range_succ, ← List.append_assoc]
        exact hp
      · dsimp only
        rw [List.range_succ, List.map_append, h.blockList_eq]
        rfl
    · rw [if_neg hg]
      exact h
  | complete i =>
    show BatchInv n clen stageErr (if i ∈ s.active then _ else s)
    by_cases hi : i ∈ s.active
    · rw [if_pos hi]
      have hact : s.active.Perm (i :: s.active.erase i) := List.perm_cons_erase hi
      have hperm : ((s.completed ++ [i]) ++ s.active.erase i).Perm (List.range s.cursor) := by
        have h1 : ((s.completed ++ [i]) ++ s.active.erase i) =
            s.completed ++ (i :: s.active.erase i) := by
          rw [List.append_assoc]; rfl
        rw [h1]
        exact ((List.Perm.append_left s.completed hact).symm).trans h.perm
      cases he : stageErr i with
      | none =>
        refine ⟨h.cursor_le, hperm, h.blockList_eq, ?_, ?_, ?_⟩
        · dsimp only
          rw [List.filter_append, List.map_append, List.sum_append, h.progress_eq]
          simp [he]
        · dsimp only
          rw [h.error_iff]
          constructor
          · intro hall j hj
            rcases List.mem_append.mp hj with hj1 | hj2
            · exact hall j hj1
            · simp at hj2; subst hj2; exact he
          · intro hall j hj
            exact hall j (List.mem_append.mpr (Or.inl hj))
        · intro e hee
          rcases h.error_mem e hee with ⟨j, hj, hje⟩
          exact ⟨j, List.mem_append.mpr (Or.inl hj), hje⟩
      | some e =>
        refine ⟨h.cursor_le, hperm, h.blockList_eq, ?_, ?_, ?_⟩
        · dsimp only
          rw [List.filter_append, List.map_append, List.sum_append, h.progress_eq]
          simp [he]
        · dsimp only
          constructor
          · intro hnone
            by_cases hs : s.firstError = none <;> simp [hs] at hnone
          · intro hall
            exact absurd (hall i (List.mem_append.mpr (Or.inr (by simp)))) (by simp [he])
        · intro e2 he2
          by_cases hs : s.firstError = none
          · simp only [hs, if_true] at he2
            refine ⟨i, List.mem_append.mpr (Or.inr (by simp)), ?_⟩
            rw [he]; exact he2.symm ▸ rfl
          · simp only [hs, if_false] at he2
            rcases h.error_mem e2 he2 with ⟨j, hj, hje⟩
            exact ⟨j, List.mem_append.mpr (Or.inl hj), hje⟩
    · simp only [hi, if_false]
      exact h

theorem batchInv_exec (n par : Nat) (clen : Nat → Int) (stageErr : Nat → Option Err)
    (sched : List BStep) :
    BatchInv n clen stageErr (batchExec n par clen stageErr sched) := by
  unfold batchExec
  induction sched using List.reverseRecOn with
  | nil => exact batchInv_init n clen stageErr
  | append_singleton l a ih =>
    rw [List.foldl_append]
    exact batchInv_step n par clen stageErr _ a ih

/-- At a resolved batch with no recorded error, all n tasks were started and
every remote stageBlock succeeded. -/
theorem batchDone_noerror_all (n par : Nat) (clen : Nat → Int)
    (stageErr : Nat → Option Err) (sched : List BStep)
    (hdone : BatchDone n (batchExec n par clen stageErr sched))
    (hnone : (batchExec n par clen stageErr sched).firstError = none) :
    (batchExec n par clen stageErr sched).cursor = n ∧ ∀ i < n, stageErr i = none := by
  have hInv := batchInv_exec n par clen stageErr sched
  set s := batchExec n par clen stageErr sched with hs
  have hcur : s.cursor = n := by
    rcases hdone.2 with hsome | hcur
    · rw [hnone] at hsome; simp at hsome
    · exact hcur
  refine ⟨hcur, fun i hi => ?_⟩
  have hmem : i ∈ s.completed ++ s.active := by
    apply hInv.perm.mem_iff.mpr
    rw [hcur]
    exact List.mem_range.mpr hi
  rw [hdone.1] at hmem
  simp at hmem
  exact hInv.error_iff.mp hnone i hmem

/-- If every remote stageBlock succeeds, no batch run ever records an error. -/
theorem batch_noerror_of_all_ok (n par : Nat) (clen : Nat → Int)
    (stageErr : Nat → Option Err) (sched : List BStep)
    (hok : ∀ i < n, stageErr i = none) :
    (batchExec n par clen stageErr sched).firstError = none := by
  have hInv := batchInv_exec n par clen stageErr sched
  set s := batchExec n par clen stageErr sched with hs
  apply hInv.error_iff.mpr
  intro i hi
  have hmem : i ∈ s.completed ++ s.active := List.mem_append.mpr (Or.inl hi)
  have := hInv.perm.mem_iff.mp hmem
  exact hok i (lt_of_lt_of_le (List.mem_range.mp this) hInv.cursor_le)

/-- Options of DownloadBlobToBuffer (interface IDownloadFromBlobOptions). -/
structure DownloadOptions where
  blockSize : Option Int := none
  blobAccessConditions : Option Unit := none
  parallelism : Option Nat := none
deriving Repr, DecidableEq

/-- A remote call issued by DownloadBlobToBuffer, in issue order:
the metadata fetch, or one ranged read with the range passed to
blobURL.download at line 237. -/
inductive DownloadEvent where
  | getProperties : DownloadEvent
  | rangedRead : Int → Int → DownloadEvent
deriving Repr, DecidableEq

/-- One iteration of the loop at lines 231-249 of highlevel.node.ts, for
loop variable off: the requested blob range (offset and count as passed to
blobURL.download, line 237), the destination region of the buffer written
by streamToBuffer (line 240, the half-open region from bufStart to bufEnd),
and the progress increment (line 244, equal to bufEnd - bufStart). -/
structure DownloadTask where
  reqOffset : Int
  reqCount : Int
  bufStart : Int
  bufEnd : Int
deriving Repr, DecidableEq

/-- The task of one loop iteration at loop variable off.  The code computes
chunkEnd = if off + blockSize < count then off + blockSize else count;
note the comparison is against count, not offset + count. -/
def downloadTaskAt (offset count bs off : Int) : DownloadTask :=
  let chunkEnd : Int := if off + bs < count then off + bs else count
  { reqOffset := off, reqCount := chunkEnd - off + 1,
    bufStart := off - offset, bufEnd := chunkEnd - offset }

/-- The loop at lines 231-249: for (off = offset; off < offset + count;
off = off + blockSize).  Recursion on a fuel bound; with blockSize at least
1 the loop runs at most count iterations, so the fuel used below never runs
out. -/
def downloadLoopGo (offset count bs : Int) : Nat → Int → List DownloadTask
  | 0, _ => []
  | fuel + 1, off =>
    if off < offset + count then
      downloadTaskAt offset count bs off :: downloadLoopGo offset count bs fuel (off + bs)
    else []

/-- The full list of ranged-read tasks issued by the loop. -/
def downloadTasks (offset count bs : Int) : List DownloadTask :=
  downloadLoopGo offset count bs (count.toNat + 1) offset

/-- Result of a modelled DownloadBlobToBuffer call: the mutated options
object as visible to the caller on return, the remote calls issued in
order, the thrown error if any, the resolved byte count, and the ranged
read tasks. -/
structure DownloadRun where
  finalOptions : DownloadOptions
  events : List DownloadEvent
  outcome : Option Err
  resolvedCount : Int
  tasks : List DownloadTask
deriving Repr, DecidableEq

/-- A run that ends in a thrown error. -/
def mkDownloadErr (o : DownloadOptions) (evs : List DownloadEvent) (c : Int)
    (e : Err) : DownloadRun :=
  { finalOptions := o, events := evs, outcome := some e, resolvedCount := c,
    tasks := [] }

/-- Lines 184-251 of highlevel.node.ts: DownloadBlobToBuffer.  offset and
count are the call arguments, bufferLen the length of the destination
buffer, blobLen the content length returned by the remote getProperties
(an external collaborator).  The validation steps run in source order;
when count is 0 the metadata fetch is issued before the buffer size check.
Each remote per-range download is modelled by its requested range and the
buffer region written; the actual byte transfer is external. -/
def DownloadBlobToBuffer (offset count bufferLen blobLen : Int)
    (opts : DownloadOptions) : DownloadRun :=
  let bs0 : Int := opts.blockSize.getD 0
  let o1 : DownloadOptions := { opts with blockSize := some bs0 }
  if bs0 < 0 then mkDownloadErr o1 [] count "blockSize option must be >= 0"
  else
    let bs : Int := if bs0 = 0 then BLOB_DEFAULT_DOWNLOAD_BLOCK_BYTES else bs0
    let o2 : DownloadOptions := { o1 with blockSize := some bs }
    if offset < 0 then mkDownloadErr o2 [] count "offset option must be >= 0"
    else if count < 0 then mkDownloadErr o2 [] count "count option must be >= 0"
    else
      let o3 : DownloadOptions :=
        { o2 with blobAccessConditions := some (o2.blobAccessConditions.getD ()) }
      let evs : List DownloadEvent := if count = 0 then [.getProperties] else []
      let resolved : Int := if count = 0 then blobLen - offset else count
      if count = 0 ∧ resolved < 0 then
        mkDownloadErr o3 evs resolved
          ("count " ++ toString resolved ++ " should not be less than 0")
      else if bufferLen < resolved then
        mkDownloadErr o3 evs resolved
          ("The buffer size should be equal to or larger than the request count of bytes: "
            ++ toString resolved)
      else
        let tasks := downloadTasks offset resolved bs
        { finalOptions := o3,
          events := evs ++ tasks.map (fun t => .rangedRead t.reqOffset t.reqCount),
          outcome := none, resolvedCount := resolved, tasks := tasks }


theorem downloadLoopGo_zero (L bs : Int) (hbs : 0 < bs) :
    ∀ (fuel : Nat) (k : Nat), L ≤ bs * k + bs * fuel →
      downloadLoopGo 0 L bs fuel (bs * k) =
        (List.range' k (jsCeilDiv (L - bs * k) bs).toNat).map
          (fun j : Nat => downloadTaskAt 0 L bs (bs * (j : Int))) := by
  intro fuel
  induction fuel with
  | zero =>
    intro k hk
    have hle : jsCeilDiv (L - bs * k) bs ≤ 0 := by
      rw [jsCeilDiv_le_iff hbs]
      omega
    have hz : (jsCeilDiv (L - bs * k) bs).toNat = 0 := by omega
    simp [downloadLoopGo, hz]
  | succ fuel ih =>
    intro k hk
    by_cases hlt : (bs * k : Int) < 0 + L
    · have hpos : 0 < jsCeilDiv (L - bs * k) bs := by
        rw [lt_jsCeilDiv_iff hbs]
        omega
      have hsub : jsCeilDiv (L - bs * ((k : Int) + 1)) bs = jsCeilDiv (L - bs * k) bs - 1 := by
        have harg : L - bs * ((k : Int) + 1) = (L - bs * k) - bs := by ring
        rw [harg, jsCeilDiv_sub_divisor hbs]
      have hm : (jsCeilDiv (L - bs * k) bs).toNat =
          (jsCeilDiv (L - bs * ((k : Int) + 1)) bs).toNat + 1 := by omega
      have hnext : bs * (k : Int) + bs = bs * (((k + 1 : Nat)) : Int) := by push_cast; ring
      have hcast : ((((k + 1 : Nat)) : Int)) = (k : Int) + 1 := by push_cast; ring
      have hkfuel : L ≤ bs * (((k + 1 : Nat)) : Int) + bs * fuel := by
        rw [hcast]
        have h2 : bs * ((fuel : Int) + 1) = bs * (fuel : Int) + bs := by ring
        have h3 : bs * ((k : Int) + 1) = bs * (k : Int) + bs := by ring
        push_cast at hk
        omega
      have htail := ih (k + 1) hkfuel
      rw [downloadLoopGo, if_pos hlt, hnext, htail, hm, hcast, List.range'_succ]
      simp
    · have hle : jsCeilDiv (L - bs * k) bs ≤ 0 := by
        rw [jsCeilDiv_le_iff hbs]
        omega
      have hz : (jsCeilDiv (L - bs * k) bs).toNat = 0 := by omega
      rw [downloadLoopGo, if_neg hlt, hz]
      simp

theorem downloadTaskAt_zero (L bs k : Int) :
    downloadTaskAt 0 L bs (bs * k) =
      { reqOffset := bs * k, reqCount := min (bs * (k + 1)) L - bs * k + 1,
        bufStart := bs * k, bufEnd := min (bs * (k + 1)) L } := by
  have hr : bs * (k + 1) = bs * k + bs := by ring
  simp only [downloadTaskAt, DownloadTask.mk.injEq, min_def]
  split_ifs <;> exact ⟨trivial, by omega, by omega, by omega⟩

theorem downloadTasks_zero_closed (L bs : Int) (hbs : 0 < bs) (hL : 0 ≤ L) :
    downloadTasks 0 L bs =
      (List.range (jsCeilDiv L bs).toNat).map
        (fun k : Nat => { reqOffset := bs * (k : Int),
                          reqCount := min (bs * ((k : Int) + 1)) L - bs * (k : Int) + 1,
                          bufStart := bs * (k : Int),
                          bufEnd := min (bs * ((k : Int) + 1)) L }) := by
  have hfuel : L ≤ bs * (((0 : Nat)) : Int) + bs * ((L.toNat + 1 : Nat) : Int) := by
    have h1 : (1 : Int) * ((L.toNat + 1 : Nat) : Int) ≤ bs * ((L.toNat + 1 : Nat) : Int) := by
      apply mul_le_mul_of_nonneg_right (by omega) (by positivity)
    push_cast at h1 ⊢
    omega
  have hmain := downloadLoopGo_zero L bs hbs (L.toNat + 1) 0 hfuel
  have hz : bs * (((0 : Nat)) : Int) = 0 := by simp
  rw [hz] at hmain
  have hz2 : L - 0 = L := by ring
  unfold downloadTasks
  rw [hmain, hz2, List.range_eq_range']
  apply List.map_congr_left
  intro a _
  exact downloadTaskAt_zero L bs a

theorem list_telescope_sum (f : Nat → Int) (n : Nat) :
    ((List.range n).map (fun k => f (k + 1) - f k)).sum = f n - f 0 := by
  induction n with
  | zero => simp
  | succ n ih =>
    rw [List.range_succ, List.map_append, List.sum_append, ih]
    simp

theorem uploadValidate_ok_elim {size : Int} {opts o : UploadOptions}
    (hv : uploadValidate size opts = .ok o) :
    ¬(opts.blockSize.getD 0 < 0 ∨
        opts.blockSize.getD 0 > BLOCK_BLOB_MAX_UPLOAD_BLOB_BYTES) ∧
    ¬(opts.blockSize.getD 0 = 0 ∧
        size > BLOCK_BLOB_MAX_STAGE_BLOCK_BYTES * BLOCK_BLOB_MAX_BLOCKS) ∧
    o = { opts with
          blockSize := some (if opts.blockSize.getD 0 = 0 ∧
              size > BLOCK_BLOB_MAX_UPLOAD_BLOB_BYTES
            then max (jsCeilDiv size BLOCK_BLOB_MAX_BLOCKS) BLOB_DEFAULT_DOWNLOAD_BLOCK_BYTES
            else opts.blockSize.getD 0),
          blobHTTPHeaders := some (opts.blobHTTPHeaders.getD ()),
          blobAccessConditions := some (opts.blobAccessConditions.getD ()) } := by
  unfold uploadValidate at hv
  by_cases h1 : (opts.blockSize.getD 0 < 0 ∨
      opts.blockSize.getD 0 > BLOCK_BLOB_MAX_UPLOAD_BLOB_BYTES)
  · rw [if_pos h1] at hv
    exact absurd hv (by simp)
  · rw [if_neg h1] at hv
    by_cases h2 : (opts.blockSize.getD 0 = 0 ∧
        size > BLOCK_BLOB_MAX_STAGE_BLOCK_BYTES * BLOCK_BLOB_MAX_BLOCKS)
    · rw [if_pos h2] at hv
      exact absurd hv (by simp)
    · rw [if_neg h2] at hv
      refine ⟨h1, h2, ?_⟩
      exact ((Except.ok.injEq _ _).mp hv).symm

theorem uploadValidate_too_large {size : Int} {opts : UploadOptions}
    (hbs0 : opts.blockSize.getD 0 = 0)
    (hbig : size > BLOCK_BLOB_MAX_STAGE_BLOCK_BYTES * BLOCK_BLOB_MAX_BLOCKS) :
    uploadValidate size opts =
      .error (toString size ++ " is too larger to upload to a block blob.") := by
  unfold uploadValidate
  rw [hbs0]
  rw [if_neg (by norm_num [BLOCK_BLOB_MAX_UPLOAD_BLOB_BYTES])]
  rw [if_pos ⟨rfl, hbig⟩]

/-- C6: when the caller leaves blockSize unspecified and the size exceeds
the single-shot limit, the block size chosen by
UploadResetableStreamToBlockBlob is the smallest integer s such that
ceil(size / s) stays within the maximum block count, floored at the
minimum efficient block size; and when size exceeds the product of the
maximum staged-block size and the maximum block count, the call is
rejected with a configuration error. -/
theorem auto_block_size_minimal :
    (∀ (size : Int) (opts o : UploadOptions),
      opts.blockSize.getD 0 = 0 →
      size > BLOCK_BLOB_MAX_UPLOAD_BLOB_BYTES →
      uploadValidate size opts = .ok o →
      ∃ smin : Int,
        0 < smin ∧
        jsCeilDiv size smin ≤ BLOCK_BLOB_MAX_BLOCKS ∧
        (∀ t : Int, 0 < t → t < smin → BLOCK_BLOB_MAX_BLOCKS < jsCeilDiv size t) ∧
        o.blockSize = some (max smin BLOB_DEFAULT_DOWNLOAD_BLOCK_BYTES)) ∧
    (∀ (size : Int) (opts : UploadOptions),
      opts.blockSize.getD 0 = 0 →
      size > BLOCK_BLOB_MAX_STAGE_BLOCK_BYTES * BLOCK_BLOB_MAX_BLOCKS →
      uploadValidate size opts =
        .error (toString size ++ " is too larger to upload to a block blob.")) := by
  constructor
  · intro size opts o hbs0 hbig hv
    have hB : (0 : Int) < BLOCK_BLOB_MAX_BLOCKS := by norm_num [BLOCK_BLOB_MAX_BLOCKS]
    have hsize : (0 : Int) < size := by
      have : (0 : Int) < BLOCK_BLOB_MAX_UPLOAD_BLOB_BYTES := by
        norm_num [BLOCK_BLOB_MAX_UPLOAD_BLOB_BYTES]
      omega
    have hc : 0 < jsCeilDiv size BLOCK_BLOB_MAX_BLOCKS :=
      (lt_jsCeilDiv_iff hB (0 : Int)).mpr (by simpa using hsize)
    refine ⟨jsCeilDiv size BLOCK_BLOB_MAX_BLOCKS, hc, ?_, ?_, ?_⟩
    · have hup : size ≤ jsCeilDiv size BLOCK_BLOB_MAX_BLOCKS * BLOCK_BLOB_MAX_BLOCKS :=
        (jsCeilDiv_le_iff hB (jsCeilDiv size BLOCK_BLOB_MAX_BLOCKS)).mp le_rfl
      rw [jsCeilDiv_le_iff hc]
      have hcomm : BLOCK_BLOB_MAX_BLOCKS * jsCeilDiv size BLOCK_BLOB_MAX_BLOCKS =
          jsCeilDiv size BLOCK_BLOB_MAX_BLOCKS * BLOCK_BLOB_MAX_BLOCKS := by ring
      omega
    · intro t ht htlt
      rw [lt_jsCeilDiv_iff ht]
      have hlow : (jsCeilDiv size BLOCK_BLOB_MAX_BLOCKS - 1) * BLOCK_BLOB_MAX_BLOCKS < size :=
        (lt_jsCeilDiv_iff hB _).mp (by omega)
      have hmono : BLOCK_BLOB_MAX_BLOCKS * t ≤
          BLOCK_BLOB_MAX_BLOCKS * (jsCeilDiv size BLOCK_BLOB_MAX_BLOCKS - 1) :=
        mul_le_mul_of_nonneg_left (by omega) (by omega)
      have hcomm : BLOCK_BLOB_MAX_BLOCKS * (jsCeilDiv size BLOCK_BLOB_MAX_BLOCKS - 1) =
          (jsCeilDiv size BLOCK_BLOB_MAX_BLOCKS - 1) * BLOCK_BLOB_MAX_BLOCKS := by ring
      omega
    · rcases uploadValidate_ok_elim hv with ⟨-, -, ho⟩
      rw [ho]
      simp [hbs0, hbig]
  · intro size opts hbs0 hbig
    exact uploadValidate_too_large hbs0 hbig

theorem auto_block_size_minimal_witness :
    ∃ smin : Int,
      0 < smin ∧
      jsCeilDiv 268435457 smin ≤ BLOCK_BLOB_MAX_BLOCKS ∧
      (∀ t : Int, 0 < t → t < smin → BLOCK_BLOB_MAX_BLOCKS < jsCeilDiv 268435457 t) ∧
      ({ blockSize := some 4194304, blobHTTPHeaders := some (),
         blobAccessConditions := some (), parallelism := none } : UploadOptions).blockSize =
        some (max smin BLOB_DEFAULT_DOWNLOAD_BLOCK_BYTES) :=
  auto_block_size_minimal.1 268435457 {}
    { blockSize := some 4194304, blobHTTPHeaders := some (),
      blobAccessConditions := some (), parallelism := none }
    rfl (by decide) (by rfl)

/-- C4 (amended): the chunk-count bound and the single-shot-limit bound on
the block size are enforced before any network call: validated options
always carry a block size between 0 and the single-shot limit, any
validation error and any block-count violation surface with zero remote
calls, and a run that issues any remote chunk call passed validation, took
the chunked path and satisfied the block-count bound.  The per-staged-block
service maximum of 100 MB is not checked (see the counterexample). -/
theorem upload_bounds_enforced_before_network :
    (∀ (size : Int) (opts o : UploadOptions),
      uploadValidate size opts = .ok o →
      0 ≤ o.blockSize.getD 0 ∧
        o.blockSize.getD 0 ≤ BLOCK_BLOB_MAX_UPLOAD_BLOB_BYTES) ∧
    (∀ (size : Int) (opts : UploadOptions) (e : Err) (stageErr : Nat → Option Err)
        (singleErr commitErr : Option Err) (sched : List BStep),
      uploadValidate size opts = .error e →
      (UploadResetableStreamToBlockBlob size opts stageErr singleErr commitErr sched).outcome = some e ∧
      (UploadResetableStreamToBlockBlob size opts stageErr singleErr commitErr sched).singleUploadCalls = 0 ∧
      (UploadResetableStreamToBlockBlob size opts stageErr singleErr commitErr sched).stageCalls = 0 ∧
      (UploadResetableStreamToBlockBlob size opts stageErr singleErr commitErr sched).commitCalls = 0) ∧
    (∀ (size : Int) (opts o : UploadOptions) (stageErr : Nat → Option Err)
        (singleErr commitErr : Option Err) (sched : List BStep),
      uploadValidate size opts = .ok o →
      BLOCK_BLOB_MAX_UPLOAD_BLOB_BYTES < size →
      BLOCK_BLOB_MAX_BLOCKS < numBlocksI size (o.blockSize.getD 0) →
      (UploadResetableStreamToBlockBlob size opts stageErr singleErr commitErr sched).outcome =
        some ("The buffer size is too big or the BlockSize is too small;" ++
          "the number of blocks must be <= " ++ toString BLOCK_BLOB_MAX_BLOCKS) ∧
      (UploadResetableStreamToBlockBlob size opts stageErr singleErr commitErr sched).singleUploadCalls = 0 ∧
      (UploadResetableStreamToBlockBlob size opts stageErr singleErr commitErr sched).stageCalls = 0 ∧
      (UploadResetableStreamToBlockBlob size opts stageErr singleErr commitErr sched).commitCalls = 0) ∧
    (∀ (size : Int) (opts : UploadOptions) (stageErr : Nat → Option Err)
        (singleErr commitErr : Option Err) (sched : List BStep),
      (UploadResetableStreamToBlockBlob size opts stageErr singleErr commitErr sched).stageCalls ≠ 0 ∨
        (UploadResetableStreamToBlockBlob size opts stageErr singleErr commitErr sched).commitCalls ≠ 0 →
      ∃ o, uploadValidate size opts = .ok o ∧
        BLOCK_BLOB_MAX_UPLOAD_BLOB_BYTES < size ∧
        numBlocksI size (o.blockSize.getD 0) ≤ BLOCK_BLOB_MAX_BLOCKS) := by
  refine ⟨?_, ?_, ?_, ?_⟩
  · intro size opts o hv
    rcases uploadValidate_ok_elim hv with ⟨h1, h2, ho⟩
    rw [ho]
    dsimp only
    rw [Option.getD_some]
    by_cases h3 : opts.blockSize.getD 0 = 0 ∧ size > BLOCK_BLOB_MAX_UPLOAD_BLOB_BYTES
    · rw [if_pos h3]
      have hsz : size ≤ BLOCK_BLOB_MAX_STAGE_BLOCK_BYTES * BLOCK_BLOB_MAX_BLOCKS := by
        rcases h3 with ⟨hz, -⟩
        by_contra hc
        exact h2 ⟨hz, by omega⟩
      have hB : (0 : Int) < BLOCK_BLOB_MAX_BLOCKS := by norm_num [BLOCK_BLOB_MAX_BLOCKS]
      have hceil : jsCeilDiv size BLOCK_BLOB_MAX_BLOCKS ≤ BLOCK_BLOB_MAX_UPLOAD_BLOB_BYTES := by
        rw [jsCeilDiv_le_iff hB]
        have : BLOCK_BLOB_MAX_STAGE_BLOCK_BYTES * BLOCK_BLOB_MAX_BLOCKS ≤
            BLOCK_BLOB_MAX_UPLOAD_BLOB_BYTES * BLOCK_BLOB_MAX_BLOCKS := by
          norm_num [BLOCK_BLOB_MAX_STAGE_BLOCK_BYTES, BLOCK_BLOB_MAX_BLOCKS,
            BLOCK_BLOB_MAX_UPLOAD_BLOB_BYTES]
        omega
      constructor
      · have : (0 : Int) ≤ BLOB_DEFAULT_DOWNLOAD_BLOCK_BYTES := by
          norm_num [BLOB_DEFAULT_DOWNLOAD_BLOCK_BYTES]
        exact le_trans this (le_max_right _ _)
      · apply max_le hceil
        norm_num [BLOB_DEFAULT_DOWNLOAD_BLOCK_BYTES, BLOCK_BLOB_MAX_UPLOAD_BLOB_BYTES]
    · rw [if_neg h3]
      omega
  · intro size opts e stageErr singleErr commitErr sched hv
    simp only [UploadResetableStreamToBlockBlob, hv]
    simp
  · intro size opts o stageErr singleErr commitErr sched hv hbig hn
    simp only [UploadResetableStreamToBlockBlob, hv]
    rw [if_neg (by omega), if_pos (by omega)]
    simp
  · intro size opts stageErr singleErr commitErr sched hcall
    cases hv : uploadValidate size opts with
    | error e =>
      simp only [UploadResetableStreamToBlockBlob, hv] at hcall
      simp at hcall
    | ok o =>
      by_cases hbig : size ≤ BLOCK_BLOB_MAX_UPLOAD_BLOB_BYTES
      · simp only [UploadResetableStreamToBlockBlob, hv] at hcall
        rw [if_pos hbig] at hcall
        simp at hcall
      · by_cases hn : numBlocksI size (o.blockSize.getD 0) > BLOCK_BLOB_MAX_BLOCKS
        · simp only [UploadResetableStreamToBlockBlob, hv] at hcall
          rw [if_neg hbig, if_pos hn] at hcall
          simp at hcall
        · exact ⟨o, rfl, by omega, by omega⟩

theorem upload_bounds_enforced_before_network_witness :
    ((UploadResetableStreamToBlockBlob 1 { blockSize := some (-5) } (fun _ => none) none none []).outcome =
        some ("blockSize option must be >= 0 and <= " ++ toString BLOCK_BLOB_MAX_UPLOAD_BLOB_BYTES) ∧
      (UploadResetableStreamToBlockBlob 1 { blockSize := some (-5) } (fun _ => none) none none []).singleUploadCalls = 0 ∧
      (UploadResetableStreamToBlockBlob 1 { blockSize := some (-5) } (fun _ => none) none none []).stageCalls = 0 ∧
      (UploadResetableStreamToBlockBlob 1 { blockSize := some (-5) } (fun _ => none) none none []).commitCalls = 0) ∧
    (∃ o, uploadValidate 268435457 { blockSize := some 157286400 } = .ok o ∧
      BLOCK_BLOB_MAX_UPLOAD_BLOB_BYTES < 268435457 ∧
      numBlocksI 268435457 (o.blockSize.getD 0) ≤ BLOCK_BLOB_MAX_BLOCKS) :=
  ⟨upload_bounds_enforced_before_network.2.1 1 { blockSize := some (-5) }
      ("blockSize option must be >= 0 and <= " ++ toString BLOCK_BLOB_MAX_UPLOAD_BLOB_BYTES)
      (fun _ => none) none none [] rfl,
   upload_bounds_enforced_before_network.2.2.2 268435457 { blockSize := some 157286400 }
      (fun _ => none) none none [.start] (Or.inl (by decide))⟩

/-- C4 counterexample: a caller-specified block size of 150 MB exceeds the
service per-staged-block maximum of 100 MB, yet validation accepts it and
the run issues two remote stageBlock calls and resolves without any
configuration error. -/
theorem oversized_block_not_rejected_cex :
    uploadValidate 268435457 { blockSize := some 157286400 } =
      .ok { blockSize := some 157286400, blobHTTPHeaders := some (),
            blobAccessConditions := some (), parallelism := none } ∧
    BLOCK_BLOB_MAX_STAGE_BLOCK_BYTES < 157286400 ∧
    (UploadResetableStreamToBlockBlob 268435457 { blockSize := some 157286400 }
        (fun _ => none) none none [.start, .start, .complete 0, .complete 1]).outcome = none ∧
    (UploadResetableStreamToBlockBlob 268435457 { blockSize := some 157286400 }
        (fun _ => none) none none [.start, .start, .complete 0, .complete 1]).stageCalls = 2 :=
  ⟨rfl, by decide, rfl, rfl⟩

/-- C10: every call that receives an options object overwrites unset fields
with computed defaults by assigning to the caller-supplied object, and the
mutation is visible to the caller on return (finalOptions models the state
of that object): validated upload options carry blockSize,
blobHTTPHeaders and blobAccessConditions set (a caller who left blockSize
unset below the single-shot limit observes blockSize 0); a resolving
download leaves blockSize resolved and blobAccessConditions set; the
stream upload fills blobHTTPHeaders and accessConditions. -/
theorem options_mutated_in_place :
    (∀ (size : Int) (opts o : UploadOptions),
      uploadValidate size opts = .ok o →
      o.blockSize.isSome ∧ o.blobHTTPHeaders = some () ∧ o.blobAccessConditions = some () ∧
      (opts.blockSize = none → size ≤ BLOCK_BLOB_MAX_UPLOAD_BLOB_BYTES →
        o.blockSize = some 0)) ∧
    (∀ (offset count bufferLen blobLen : Int) (opts : DownloadOptions),
      (DownloadBlobToBuffer offset count bufferLen blobLen opts).outcome = none →
      (DownloadBlobToBuffer offset count bufferLen blobLen opts).finalOptions.blockSize =
        some (if opts.blockSize.getD 0 = 0 then BLOB_DEFAULT_DOWNLOAD_BLOCK_BYTES
          else opts.blockSize.getD 0) ∧
      (DownloadBlobToBuffer offset count bufferLen blobLen opts).finalOptions.blobAccessConditions =
        some ()) ∧
    (∀ (bufLens : List Int) (maxBuffers : Nat) (opts : StreamOptions)
        (stageErr : Nat → Option Err) (commitErr : Option Err) (sched : List BStep),
      (UploadStreamToBlockBlob bufLens maxBuffers opts stageErr commitErr sched).finalOptions =
        { blobHTTPHeaders := some (opts.blobHTTPHeaders.getD ()),
          accessConditions := some (opts.accessConditions.getD ()) }) := by
  refine ⟨?_, ?_, ?_⟩
  · intro size opts o hv
    rcases uploadValidate_ok_elim hv with ⟨h1, h2, ho⟩
    rw [ho]
    refine ⟨by simp, rfl, rfl, ?_⟩
    intro hnone hsmall
    have hz : opts.blockSize.getD 0 = 0 := by rw [hnone]; rfl
    simp only [hz]
    rw [if_neg (by omega)]
  · intro offset count bufferLen blobLen opts hout
    simp only [DownloadBlobToBuffer, mkDownloadErr] at hout ⊢
    split_ifs at hout ⊢ <;> simp_all
  · intro bufLens maxBuffers opts stageErr commitErr sched
    unfold UploadStreamToBlockBlob
    by_cases hf : (batchExec bufLens.length (jsCeilDiv (3 * (maxBuffers : Int)) 4).toNat
        (fun i => bufLens.getD i 0) stageErr sched).firstError.isSome
    · rw [if_pos hf]
      rfl
    · rw [if_neg hf]
      rfl

theorem options_mutated_in_place_witness :
    (({ blockSize := some 0, blobHTTPHeaders := some (),
               blobAccessConditions := some (),
               parallelism := none } : UploadOptions).blockSize.isSome ∧
      ({ blockSize := some 0, blobHTTPHeaders := some (),
               blobAccessConditions := some (),
               parallelism := none } : UploadOptions).blobHTTPHeaders = some () ∧
      ({ blockSize := some 0, blobHTTPHeaders := some (),
               blobAccessConditions := some (),
               parallelism := none } : UploadOptions).blobAccessConditions = some () ∧
      (({} : UploadOptions).blockSize = none → (1 : Int) ≤ BLOCK_BLOB_MAX_UPLOAD_BLOB_BYTES →
        ({ blockSize := some 0, blobHTTPHeaders := some (),
               blobAccessConditions := some (),
               parallelism := none } : UploadOptions).blockSize = some 0)) ∧
    ((DownloadBlobToBuffer 0 1 1 0 {}).finalOptions.blockSize =
        some (if ({} : DownloadOptions).blockSize.getD 0 = 0
          then BLOB_DEFAULT_DOWNLOAD_BLOCK_BYTES else ({} : DownloadOptions).blockSize.getD 0) ∧
      (DownloadBlobToBuffer 0 1 1 0 {}).finalOptions.blobAccessConditions = some ()) :=
  ⟨options_mutated_in_place.1 1 {}
      { blockSize := some 0, blobHTTPHeaders := some (),
               blobAccessConditions := some (),
               parallelism := none } rfl,
   options_mutated_in_place.2.1 0 1 1 0 {} rfl⟩

/-- C5 (amended): the synchronous validations of DownloadBlobToBuffer on
blockSize, offset and count each raise their error with an empty event
list, before any network activity, for every input including count 0;
every failing run precedes all ranged reads; a failing run has issued at
most the getProperties metadata fetch, and only when count is 0 — the
buffer-too-small check runs after that fetch (see the counterexample), so
it does not precede every remote call. -/
theorem download_config_errors_precede_ranged_reads :
    ∀ (offset count bufferLen blobLen : Int) (opts : DownloadOptions),
      (opts.blockSize.getD 0 < 0 →
        (DownloadBlobToBuffer offset count bufferLen blobLen opts).outcome =
          some "blockSize option must be >= 0" ∧
        (DownloadBlobToBuffer offset count bufferLen blobLen opts).events = []) ∧
      (0 ≤ opts.blockSize.getD 0 → offset < 0 →
        (DownloadBlobToBuffer offset count bufferLen blobLen opts).outcome =
          some "offset option must be >= 0" ∧
        (DownloadBlobToBuffer offset count bufferLen blobLen opts).events = []) ∧
      (0 ≤ opts.blockSize.getD 0 → 0 ≤ offset → count < 0 →
        (DownloadBlobToBuffer offset count bufferLen blobLen opts).outcome =
          some "count option must be >= 0" ∧
        (DownloadBlobToBuffer offset count bufferLen blobLen opts).events = []) ∧
      ((DownloadBlobToBuffer offset count bufferLen blobLen opts).outcome.isSome →
        (DownloadBlobToBuffer offset count bufferLen blobLen opts).events = [] ∨
          (count = 0 ∧
            (DownloadBlobToBuffer offset count bufferLen blobLen opts).events =
              [.getProperties])) ∧
      (∀ e, (DownloadBlobToBuffer offset count bufferLen blobLen opts).outcome = some e →
        ∀ ro rc, DownloadEvent.rangedRead ro rc ∉
          (DownloadBlobToBuffer offset count bufferLen blobLen opts).events) := by
  intro offset count bufferLen blobLen opts
  refine ⟨?_, ?_, ?_, ?_, ?_⟩
  · intro hbs
    simp only [DownloadBlobToBuffer, mkDownloadErr]
    rw [if_pos hbs]
    exact ⟨rfl, rfl⟩
  · intro hbs hoff
    simp only [DownloadBlobToBuffer, mkDownloadErr]
    rw [if_neg (by omega), if_pos hoff]
    exact ⟨rfl, rfl⟩
  · intro hbs hoff hcnt
    simp only [DownloadBlobToBuffer, mkDownloadErr]
    rw [if_neg (by omega), if_neg (by omega), if_pos hcnt]
    exact ⟨rfl, rfl⟩
  · intro hsome
    simp only [DownloadBlobToBuffer, mkDownloadErr] at hsome ⊢
    split_ifs at hsome ⊢ <;> simp_all
  · intro e hsome ro rc
    simp only [DownloadBlobToBuffer, mkDownloadErr] at hsome ⊢
    split_ifs at hsome ⊢ <;> simp_all

theorem download_config_errors_precede_ranged_reads_witness :
    ((DownloadBlobToBuffer (-3) 0 1 5 {}).outcome = some "offset option must be >= 0" ∧
      (DownloadBlobToBuffer (-3) 0 1 5 {}).events = []) ∧
    ((DownloadBlobToBuffer 0 0 0 1 {}).events = [] ∨
      ((0 : Int) = 0 ∧ (DownloadBlobToBuffer 0 0 0 1 {}).events = [.getProperties])) :=
  ⟨(download_config_errors_precede_ranged_reads (-3) 0 1 5 {}).2.1 (by decide) (by decide),
   (download_config_errors_precede_ranged_reads 0 0 0 1 {}).2.2.2.1 (by decide)⟩

/-- C5 counterexample: with offset 0, count 0, an empty destination buffer
and a blob of length 1, the run fails with the buffer-too-small error, yet
its event list already contains the remote getProperties call: the
buffer-size check did not precede every remote call. -/
theorem buffer_check_after_metadata_fetch_cex :
    (DownloadBlobToBuffer 0 0 0 1 {}).outcome =
      some ("The buffer size should be equal to or larger than the request count of bytes: "
        ++ toString (1 : Int)) ∧
    (DownloadBlobToBuffer 0 0 0 1 {}).events = [.getProperties] := ⟨rfl, rfl⟩

/-- C3: at offset 1, count 2, blockSize 1 (with an adequate buffer) the two
ranged-read tasks fail to partition the requested interval: the second
destination region is empty and buffer index 1 is never written, because
the loop clamps chunkEnd against count instead of offset + count. -/
theorem download_partition_bug_offset_positive :
    (DownloadBlobToBuffer 1 2 2 0 { blockSize := some 1 }).outcome = none ∧
    ((DownloadBlobToBuffer 1 2 2 0 { blockSize := some 1 }).tasks.map
        (fun t => (t.bufStart, t.bufEnd))) = [(0, 1), (1, 1)] ∧
    ¬(∀ t ∈ (DownloadBlobToBuffer 1 2 2 0 { blockSize := some 1 }).tasks,
        t.bufStart < t.bufEnd) ∧
    ¬(∀ x : Int, 0 ≤ x ∧ x < 2 →
        ∃ t ∈ (DownloadBlobToBuffer 1 2 2 0 { blockSize := some 1 }).tasks,
          t.bufStart ≤ x ∧ x < t.bufEnd) := by
  refine ⟨rfl, rfl, by decide, ?_⟩
  intro h
  exact absurd (h 1 (by decide)) (by decide)

/-- C9: at offset 10, count 5, blockSize 4 (buffer adequate) the run is
accepted but the per-chunk progress increments are -5 and -9: the progress
accumulator decreases and its final value is -14 instead of the requested
count 5, because chunkEnd is clamped against count instead of
offset + count. -/
theorem download_progress_bug_offset_positive :
    (DownloadBlobToBuffer 10 5 5 0 { blockSize := some 4 }).outcome = none ∧
    ((DownloadBlobToBuffer 10 5 5 0 { blockSize := some 4 }).tasks.map
        (fun t => t.bufEnd - t.bufStart)) = [-5, -9] ∧
    ((DownloadBlobToBuffer 10 5 5 0 { blockSize := some 4 }).tasks.map
        (fun t => t.bufEnd - t.bufStart)).sum = -14 ∧
    ((-14 : Int) ≠ 5) :=
  ⟨rfl, rfl, rfl, by decide⟩

/-- The state of the batch of chunk tasks inside
UploadResetableStreamToBlockBlob after a schedule, i.e. the values of the
internal variables blockList and transferProgress together with the batch
bookkeeping, for validated options o. -/
def uploadBatchState (size : Int) (o : UploadOptions) (stageErr : Nat → Option Err)
    (sched : List BStep) : BatchState :=
  batchExec (numBlocksI size (o.blockSize.getD 0)).toNat
    (o.parallelism.getD BATCH_DEFAULT_PARALLELISM)
    (contentLength size (o.blockSize.getD 0) (numBlocksI size (o.blockSize.getD 0)).toNat)
    stageErr sched

/-- The state of the dispatched outgoing handlers inside
UploadStreamToBlockBlob after a schedule. -/
def streamBatchState (bufLens : List Int) (maxBuffers : Nat)
    (stageErr : Nat → Option Err) (sched : List BStep) : BatchState :=
  batchExec bufLens.length (jsCeilDiv (3 * (maxBuffers : Int)) 4).toNat
    (fun i => bufLens.getD i 0) stageErr sched

/-- A recorded batch error is the stageBlock error of some task with index
below the task count. -/
theorem batch_firstError_mem (n par : Nat) (clen : Nat → Int)
    (stageErr : Nat → Option Err) (sched : List BStep) (e : Err)
    (he : (batchExec n par clen stageErr sched).firstError = some e) :
    ∃ i, i < n ∧ stageErr i = some e := by
  have hInv := batchInv_exec n par clen stageErr sched
  rcases hInv.error_mem e he with ⟨i, hi, hie⟩
  have hmem : i ∈ (batchExec n par clen stageErr sched).completed ++
      (batchExec n par clen stageErr sched).active := List.mem_append.mpr (Or.inl hi)
  have := hInv.perm.mem_iff.mp hmem
  exact ⟨i, lt_of_lt_of_le (List.mem_range.mp this) hInv.cursor_le, hie⟩

theorem uploadChunked_reduce (size : Int) (opts o : UploadOptions)
    (stageErr : Nat → Option Err) (singleErr commitErr : Option Err)
    (sched : List BStep)
    (hv : uploadValidate size opts = .ok o)
    (hbig : BLOCK_BLOB_MAX_UPLOAD_BLOB_BYTES < size)
    (hn : numBlocksI size (o.blockSize.getD 0) ≤ BLOCK_BLOB_MAX_BLOCKS) :
    UploadResetableStreamToBlockBlob size opts stageErr singleErr commitErr sched =
      (if (uploadBatchState size o stageErr sched).firstError.isSome then
        { finalOptions := o, outcome := (uploadBatchState size o stageErr sched).firstError,
          singleUploadCalls := 0,
          stageCalls := (uploadBatchState size o stageErr sched).cursor,
          commitCalls := 0, committedList := [],
          finalBlockList := (uploadBatchState size o stageErr sched).blockList,
          finalProgress := (uploadBatchState size o stageErr sched).transferProgress }
      else
        { finalOptions := o, outcome := commitErr, singleUploadCalls := 0,
          stageCalls := (uploadBatchState size o stageErr sched).cursor,
          commitCalls := 1,
          committedList := (uploadBatchState size o stageErr sched).blockList,
          finalBlockList := (uploadBatchState size o stageErr sched).blockList,
          finalProgress := (uploadBatchState size o stageErr sched).transferProgress }) := by
  simp only [UploadResetableStreamToBlockBlob, hv, uploadBatchState]
  rw [if_neg (by omega), if_neg (by omega)]

theorem streamUpload_reduce (bufLens : List Int) (maxBuffers : Nat)
    (opts : StreamOptions) (stageErr : Nat → Option Err) (commitErr : Option Err)
    (sched : List BStep) :
    UploadStreamToBlockBlob bufLens maxBuffers opts stageErr commitErr sched =
      (if (streamBatchState bufLens maxBuffers stageErr sched).firstError.isSome then
        { finalOptions := streamFillOptions opts,
          outcome := (streamBatchState bufLens maxBuffers stageErr sched).firstError,
          singleUploadCalls := 0,
          stageCalls := (streamBatchState bufLens maxBuffers stageErr sched).cursor,
          commitCalls := 0, committedList := [],
          finalBlockList := (streamBatchState bufLens maxBuffers stageErr sched).blockList,
          finalProgress := (streamBatchState bufLens maxBuffers stageErr sched).transferProgress }
      else
        { finalOptions := streamFillOptions opts, outcome := commitErr,
          singleUploadCalls := 0,
          stageCalls := (streamBatchState bufLens maxBuffers stageErr sched).cursor,
          commitCalls := 1,
          committedList := (streamBatchState bufLens maxBuffers stageErr sched).blockList,
          finalBlockList := (streamBatchState bufLens maxBuffers stageErr sched).blockList,
          finalProgress := (streamBatchState bufLens maxBuffers stageErr sched).transferProgress }) := by
  simp only [UploadStreamToBlockBlob, streamBatchState]

/-- C1: on the chunked path, commitBlockList is invoked exactly once when
and only when all chunk staging tasks succeed; whenever a staging failure
is recorded, the upload returns that error, the error belongs to one of the
chunk tasks, and commitBlockList is never invoked.  Stated for every
schedule that drives the concurrent chunk phase to completion, for
UploadResetableStreamToBlockBlob and for UploadStreamToBlockBlob. -/
theorem upload_commit_atomicity :
    (∀ (size : Int) (opts o : UploadOptions) (stageErr : Nat → Option Err)
        (singleErr commitErr : Option Err) (sched : List BStep),
      uploadValidate size opts = .ok o →
      BLOCK_BLOB_MAX_UPLOAD_BLOB_BYTES < size →
      numBlocksI size (o.blockSize.getD 0) ≤ BLOCK_BLOB_MAX_BLOCKS →
      BatchDone (numBlocksI size (o.blockSize.getD 0)).toNat
        (uploadBatchState size o stageErr sched) →
      ((UploadResetableStreamToBlockBlob size opts stageErr singleErr commitErr sched).commitCalls = 1 ↔
        ∀ i < (numBlocksI size (o.blockSize.getD 0)).toNat, stageErr i = none) ∧
      (∀ e, (uploadBatchState size o stageErr sched).firstError = some e →
        (UploadResetableStreamToBlockBlob size opts stageErr singleErr commitErr sched).outcome = some e ∧
        (UploadResetableStreamToBlockBlob size opts stageErr singleErr commitErr sched).commitCalls = 0 ∧
        ∃ i, i < (numBlocksI size (o.blockSize.getD 0)).toNat ∧ stageErr i = some e)) ∧
    (∀ (bufLens : List Int) (maxBuffers : Nat) (opts : StreamOptions)
        (stageErr : Nat → Option Err) (commitErr : Option Err) (sched : List BStep),
      BatchDone bufLens.length (streamBatchState bufLens maxBuffers stageErr sched) →
      ((UploadStreamToBlockBlob bufLens maxBuffers opts stageErr commitErr sched).commitCalls = 1 ↔
        ∀ i < bufLens.length, stageErr i = none) ∧
      (∀ e, (streamBatchState bufLens maxBuffers stageErr sched).firstError = some e →
        (UploadStreamToBlockBlob bufLens maxBuffers opts stageErr commitErr sched).outcome = some e ∧
        (UploadStreamToBlockBlob bufLens maxBuffers opts stageErr commitErr sched).commitCalls = 0 ∧
        ∃ i, i < bufLens.length ∧ stageErr i = some e)) := by
  constructor
  · intro size opts o stageErr singleErr commitErr sched hv hbig hn hdone
    rw [uploadChunked_reduce size opts o stageErr singleErr commitErr sched hv hbig hn]
    simp only [uploadBatchState] at hdone ⊢
    by_cases hf : (batchExec (numBlocksI size (o.blockSize.getD 0)).toNat
        (o.parallelism.getD BATCH_DEFAULT_PARALLELISM)
        (contentLength size (o.blockSize.getD 0) (numBlocksI size (o.blockSize.getD 0)).toNat)
        stageErr sched).firstError.isSome
    · rw [if_pos hf]
      rcases Option.isSome_iff_exists.mp hf with ⟨e, he⟩
      constructor
      · dsimp only
        constructor
        · intro h01
          exact absurd h01 (by norm_num)
        · intro hall
          have hnone := batch_noerror_of_all_ok (numBlocksI size (o.blockSize.getD 0)).toNat
            (o.parallelism.getD BATCH_DEFAULT_PARALLELISM)
            (contentLength size (o.blockSize.getD 0) (numBlocksI size (o.blockSize.getD 0)).toNat)
            stageErr sched hall
          rw [hnone] at he
          cases he
      · intro e2 he2
        refine ⟨?_, rfl, ?_⟩
        · dsimp only
          exact he2
        · exact batch_firstError_mem _ _ _ _ sched e2 he2
    · rw [if_neg hf]
      have hnone := Option.not_isSome_iff_eq_none.mp hf
      constructor
      · dsimp only
        constructor
        · intro _
          exact (batchDone_noerror_all _ _ _ _ sched hdone hnone).2
        · intro _
          rfl
      · intro e he
        rw [hnone] at he
        cases he
  · intro bufLens maxBuffers opts stageErr commitErr sched hdone
    rw [streamUpload_reduce bufLens maxBuffers opts stageErr commitErr sched]
    simp only [streamBatchState] at hdone ⊢
    by_cases hf : (batchExec bufLens.length (jsCeilDiv (3 * (maxBuffers : Int)) 4).toNat
        (fun i => bufLens.getD i 0) stageErr sched).firstError.isSome
    · rw [if_pos hf]
      rcases Option.isSome_iff_exists.mp hf with ⟨e, he⟩
      constructor
      · dsimp only
        constructor
        · intro h01
          exact absurd h01 (by norm_num)
        · intro hall
          have hnone := batch_noerror_of_all_ok bufLens.length
            (jsCeilDiv (3 * (maxBuffers : Int)) 4).toNat
            (fun i => bufLens.getD i 0) stageErr sched hall
          rw [hnone] at he
          cases he
      · intro e2 he2
        refine ⟨?_, rfl, ?_⟩
        · dsimp only
          exact he2
        · exact batch_firstError_mem _ _ _ _ sched e2 he2
    · rw [if_neg hf]
      have hnone := Option.not_isSome_iff_eq_none.mp hf
      constructor
      · dsimp only
        constructor
        · intro _
          exact (batchDone_noerror_all _ _ _ _ sched hdone hnone).2
        · intro _
          rfl
      · intro e he
        rw [hnone] at he
        cases he

instance batchDoneDecidable (n : Nat) (s : BatchState) : Decidable (BatchDone n s) :=
  decidable_of_iff (s.active = [] ∧ (s.firstError.isSome ∨ s.cursor = n)) Iff.rfl

theorem upload_commit_atomicity_witness :
    (UploadResetableStreamToBlockBlob 536870912 { blockSize := some 268435456 }
        (fun _ => none) none none [.start, .start, .complete 0, .complete 1]).commitCalls = 1 ∧
    (UploadStreamToBlockBlob [3, 5] 4 {} (fun _ => none) none
        [.start, .start, .complete 0, .complete 1]).commitCalls = 1 := by
  constructor
  · exact (upload_commit_atomicity.1 536870912 { blockSize := some 268435456 }
      { blockSize := some 268435456, blobHTTPHeaders := some (),
               blobAccessConditions := some (), parallelism := none }
      (fun _ => none) none none [.start, .start, .complete 0, .complete 1]
      rfl (by decide) (by decide) (by decide)).1.mpr (fun i _ => rfl)
  · exact (upload_commit_atomicity.2 [3, 5] 4 {} (fun _ => none) none
      [.start, .start, .complete 0, .complete 1] (by decide)).1.mpr (fun i _ => rfl)

/-- C2: whenever the chunked upload reaches commitBlockList, the committed
list is exactly the block IDs of indices 0 to numBlocks - 1 in strictly
increasing index order, for every schedule of task starts and completions
that drives the batch to completion; likewise for the stream upload with
its dispatched buffers. -/
theorem commit_receives_ids_in_index_order :
    (∀ (size : Int) (opts o : UploadOptions) (stageErr : Nat → Option Err)
        (singleErr commitErr : Option Err) (sched : List BStep),
      uploadValidate size opts = .ok o →
      BLOCK_BLOB_MAX_UPLOAD_BLOB_BYTES < size →
      numBlocksI size (o.blockSize.getD 0) ≤ BLOCK_BLOB_MAX_BLOCKS →
      BatchDone (numBlocksI size (o.blockSize.getD 0)).toNat
        (uploadBatchState size o stageErr sched) →
      (UploadResetableStreamToBlockBlob size opts stageErr singleErr commitErr sched).commitCalls = 1 →
      (UploadResetableStreamToBlockBlob size opts stageErr singleErr commitErr sched).committedList =
        (List.range (numBlocksI size (o.blockSize.getD 0)).toNat).map generateBlockID) ∧
    (∀ (bufLens : List Int) (maxBuffers : Nat) (opts : StreamOptions)
        (stageErr : Nat → Option Err) (commitErr : Option Err) (sched : List BStep),
      BatchDone bufLens.length (streamBatchState bufLens maxBuffers stageErr sched) →
      (UploadStreamToBlockBlob bufLens maxBuffers opts stageErr commitErr sched).commitCalls = 1 →
      (UploadStreamToBlockBlob bufLens maxBuffers opts stageErr commitErr sched).committedList =
        (List.range bufLens.length).map generateBlockID) := by
  constructor
  · intro size opts o stageErr singleErr commitErr sched hv hbig hn hdone hcommit
    rw [uploadChunked_reduce size opts o stageErr singleErr commitErr sched hv hbig hn] at hcommit ⊢
    simp only [uploadBatchState] at hdone hcommit ⊢
    by_cases hf : (batchExec (numBlocksI size (o.blockSize.getD 0)).toNat
        (o.parallelism.getD BATCH_DEFAULT_PARALLELISM)
        (contentLength size (o.blockSize.getD 0) (numBlocksI size (o.blockSize.getD 0)).toNat)
        stageErr sched).firstError.isSome
    · rw [if_pos hf] at hcommit
      exact absurd hcommit (by norm_num)
    · rw [if_neg hf]
      have hnone := Option.not_isSome_iff_eq_none.mp hf
      have hInv := batchInv_exec (numBlocksI size (o.blockSize.getD 0)).toNat
        (o.parallelism.getD BATCH_DEFAULT_PARALLELISM)
        (contentLength size (o.blockSize.getD 0) (numBlocksI size (o.blockSize.getD 0)).toNat)
        stageErr sched
      have hcur := (batchDone_noerror_all _ _ _ _ sched hdone hnone).1
      dsimp only
      rw [hInv.blockList_eq, hcur]
  · intro bufLens maxBuffers opts stageErr commitErr sched hdone hcommit
    rw [streamUpload_reduce bufLens maxBuffers opts stageErr commitErr sched] at hcommit ⊢
    simp only [streamBatchState] at hdone hcommit ⊢
    by_cases hf : (batchExec bufLens.length (jsCeilDiv (3 * (maxBuffers : Int)) 4).toNat
        (fun i => bufLens.getD i 0) stageErr sched).firstError.isSome
    · rw [if_pos hf] at hcommit
      exact absurd hcommit (by norm_num)
    · rw [if_neg hf]
      have hnone := Option.not_isSome_iff_eq_none.mp hf
      have hInv := batchInv_exec bufLens.length (jsCeilDiv (3 * (maxBuffers : Int)) 4).toNat
        (fun i => bufLens.getD i 0) stageErr sched
      have hcur := (batchDone_noerror_all _ _ _ _ sched hdone hnone).1
      dsimp only
      rw [hInv.blockList_eq, hcur]

theorem commit_receives_ids_in_index_order_witness :
    (UploadResetableStreamToBlockBlob 536870912 { blockSize := some 268435456 }
        (fun _ => none) none none [.start, .start, .complete 1, .complete 0]).committedList =
      (List.range 2).map generateBlockID ∧
    (UploadStreamToBlockBlob [3, 5] 4 {} (fun _ => none) none
        [.start, .start, .complete 1, .complete 0]).committedList =
      (List.range 2).map generateBlockID := by
  constructor
  · exact commit_receives_ids_in_index_order.1 536870912 { blockSize := some 268435456 }
      { blockSize := some 268435456, blobHTTPHeaders := some (),
               blobAccessConditions := some (), parallelism := none }
      (fun _ => none) none none [.start, .start, .complete 1, .complete 0]
      rfl (by decide) (by decide) (by decide) rfl
  · exact commit_receives_ids_in_index_order.2 [3, 5] 4 {} (fun _ => none) none
      [.start, .start, .complete 1, .complete 0] (by decide) rfl

/-- C7 counterexample: a chunked upload of two 256 MB chunks in which the
stageBlock of chunk 0 fails; after the schedule that starts task 0 and lets
its remote call fail, the recorded error is that of chunk 0, commitBlockList
is never invoked, and yet the block ID of the failed chunk 0 sits in the
shared block list, because the code pushes the ID (line 144) before
awaiting stageBlock (line 145). -/
theorem failed_chunk_id_in_block_list_cex :
    (UploadResetableStreamToBlockBlob 536870912 { blockSize := some 268435456 }
        (fun i => if i = 0 then some "boom" else none) none none
        [.start, .complete 0]).outcome = some "boom" ∧
    (UploadResetableStreamToBlockBlob 536870912 { blockSize := some 268435456 }
        (fun i => if i = 0 then some "boom" else none) none none
        [.start, .complete 0]).commitCalls = 0 ∧
    (fun i => if i = 0 then some "boom" else (none : Option Err)) 0 = some "boom" ∧
    generateBlockID 0 ∈
      (UploadResetableStreamToBlockBlob 536870912 { blockSize := some 268435456 }
        (fun i => if i = 0 then some "boom" else none) none none
        [.start, .complete 0]).finalBlockList := by
  refine ⟨rfl, rfl, rfl, ?_⟩
  decide

/-- C7 (amended): each chunk task pushes its block ID onto the shared block
list at task start, before its remote stageBlock settles, so after any
schedule the list holds the IDs of all started tasks, the failed ones
included; the progress accumulator, by contrast, sums the content lengths
of exactly the tasks whose stageBlock succeeded; and when a failure was
recorded the list is never committed.  Stated for
UploadResetableStreamToBlockBlob and UploadStreamToBlockBlob. -/
theorem block_id_pushed_at_start_progress_after_success :
    (∀ (size : Int) (opts o : UploadOptions) (stageErr : Nat → Option Err)
        (singleErr commitErr : Option Err) (sched : List BStep),
      uploadValidate size opts = .ok o →
      BLOCK_BLOB_MAX_UPLOAD_BLOB_BYTES < size →
      numBlocksI size (o.blockSize.getD 0) ≤ BLOCK_BLOB_MAX_BLOCKS →
      (UploadResetableStreamToBlockBlob size opts stageErr singleErr commitErr sched).finalBlockList =
        (List.range (uploadBatchState size o stageErr sched).cursor).map generateBlockID ∧
      (UploadResetableStreamToBlockBlob size opts stageErr singleErr commitErr sched).finalProgress =
        (((uploadBatchState size o stageErr sched).completed.filter
            (fun i => (stageErr i).isNone)).map
          (contentLength size (o.blockSize.getD 0)
            (numBlocksI size (o.blockSize.getD 0)).toNat)).sum ∧
      ((uploadBatchState size o stageErr sched).firstError.isSome →
        (UploadResetableStreamToBlockBlob size opts stageErr singleErr commitErr sched).commitCalls = 0)) ∧
    (∀ (bufLens : List Int) (maxBuffers : Nat) (opts : StreamOptions)
        (stageErr : Nat → Option Err) (commitErr : Option Err) (sched : List BStep),
      (UploadStreamToBlockBlob bufLens maxBuffers opts stageErr commitErr sched).finalBlockList =
        (List.range (streamBatchState bufLens maxBuffers stageErr sched).cursor).map generateBlockID ∧
      (UploadStreamToBlockBlob bufLens maxBuffers opts stageErr commitErr sched).finalProgress =
        (((streamBatchState bufLens maxBuffers stageErr sched).completed.filter
            (fun i => (stageErr i).isNone)).map (fun i => bufLens.getD i 0)).sum ∧
      ((streamBatchState bufLens maxBuffers stageErr sched).firstError.isSome →
        (UploadStreamToBlockBlob bufLens maxBuffers opts stageErr commitErr sched).commitCalls = 0)) := by
  constructor
  · intro size opts o stageErr singleErr commitErr sched hv hbig hn
    rw [uploadChunked_reduce size opts o stageErr singleErr commitErr sched hv hbig hn]
    simp only [uploadBatchState]
    have hInv := batchInv_exec (numBlocksI size (o.blockSize.getD 0)).toNat
      (o.parallelism.getD BATCH_DEFAULT_PARALLELISM)
      (contentLength size (o.blockSize.getD 0) (numBlocksI size (o.blockSize.getD 0)).toNat)
      stageErr sched
    by_cases hf : (batchExec (numBlocksI size (o.blockSize.getD 0)).toNat
        (o.parallelism.getD BATCH_DEFAULT_PARALLELISM)
        (contentLength size (o.blockSize.getD 0) (numBlocksI size (o.blockSize.getD 0)).toNat)
        stageErr sched).firstError.isSome
    · rw [if_pos hf]
      exact ⟨hInv.blockList_eq, hInv.progress_eq, fun _ => rfl⟩
    · rw [if_neg hf]
      exact ⟨hInv.blockList_eq, hInv.progress_eq, fun hc => absurd hc hf⟩
  · intro bufLens maxBuffers opts stageErr commitErr sched
    rw [streamUpload_reduce bufLens maxBuffers opts stageErr commitErr sched]
    simp only [streamBatchState]
    have hInv := batchInv_exec bufLens.length (jsCeilDiv (3 * (maxBuffers : Int)) 4).toNat
      (fun i => bufLens.getD i 0) stageErr sched
    by_cases hf : (batchExec bufLens.length (jsCeilDiv (3 * (maxBuffers : Int)) 4).toNat
        (fun i => bufLens.getD i 0) stageErr sched).firstError.isSome
    · rw [if_pos hf]
      exact ⟨hInv.blockList_eq, hInv.progress_eq, fun _ => rfl⟩
    · rw [if_neg hf]
      exact ⟨hInv.blockList_eq, hInv.progress_eq, fun hc => absurd hc hf⟩

theorem block_id_pushed_at_start_progress_after_success_witness :
    (UploadResetableStreamToBlockBlob 536870912 { blockSize := some 268435456 }
        (fun i => if i = 0 then some "boom" else none) none none [.start]).finalBlockList =
      (List.range (uploadBatchState 536870912
        { blockSize := some 268435456, blobHTTPHeaders := some (),
               blobAccessConditions := some (), parallelism := none }
        (fun i => if i = 0 then some "boom" else none) [.start]).cursor).map generateBlockID :=
  (block_id_pushed_at_start_progress_after_success.1 536870912
    { blockSize := some 268435456 }
    { blockSize := some 268435456, blobHTTPHeaders := some (),
           blobAccessConditions := some (), parallelism := none }
    (fun i => if i = 0 then some "boom" else none) none none [.start]
    rfl (by decide) (by decide)).1

/-- C8: a download of a blob of length L with offset 0 and count 0 resolves
the count to L from the fetched metadata (the getProperties event leads the
event list), issues exactly ceil(L / blockSize) ranged reads, and their
destination regions are the consecutive intervals of [0, L): they sum to
exactly L bytes, cover [0, L), and are pairwise disjoint. -/
theorem download_full_blob_partition :
    ∀ (L bufferLen bs : Int) (opts : DownloadOptions) (n : Nat),
      0 < L →
      L ≤ bufferLen →
      0 ≤ opts.blockSize.getD 0 →
      bs = (if opts.blockSize.getD 0 = 0 then BLOB_DEFAULT_DOWNLOAD_BLOCK_BYTES
        else opts.blockSize.getD 0) →
      n = (jsCeilDiv L bs).toNat →
      (DownloadBlobToBuffer 0 0 bufferLen L opts).outcome = none ∧
      (DownloadBlobToBuffer 0 0 bufferLen L opts).resolvedCount = L ∧
      (DownloadBlobToBuffer 0 0 bufferLen L opts).events.head? =
        some DownloadEvent.getProperties ∧
      (DownloadBlobToBuffer 0 0 bufferLen L opts).tasks =
        (List.range n).map (fun k : Nat =>
          { reqOffset := bs * (k : Int),
            reqCount := min (bs * ((k : Int) + 1)) L - bs * (k : Int) + 1,
            bufStart := bs * (k : Int), bufEnd := min (bs * ((k : Int) + 1)) L }) ∧
      (DownloadBlobToBuffer 0 0 bufferLen L opts).tasks.length = n ∧
      (((DownloadBlobToBuffer 0 0 bufferLen L opts).tasks.map
          (fun t => t.bufEnd - t.bufStart)).sum = L) ∧
      (∀ x : Int, (0 ≤ x ∧ x < L) ↔
        ∃ k : Nat, k < n ∧ bs * (k : Int) ≤ x ∧ x < min (bs * ((k : Int) + 1)) L) ∧
      (∀ j k : Nat, j < k → k < n →
        min (bs * ((j : Int) + 1)) L ≤ bs * (k : Int)) := by
  intro L bufferLen bs opts n hL hbuf hbs0 hbs hn
  have hbspos : 0 < bs := by
    rw [hbs]
    split_ifs with h
    · norm_num [BLOB_DEFAULT_DOWNLOAD_BLOCK_BYTES]
    · omega
  have hceilpos : 0 < jsCeilDiv L bs := by
    rw [lt_jsCeilDiv_iff hbspos]
    simpa using hL
  have hncast : ((n : Int)) = jsCeilDiv L bs := by
    rw [hn]
    omega
  have hred : DownloadBlobToBuffer 0 0 bufferLen L opts =
      { finalOptions :=
          { blockSize := some bs,
            blobAccessConditions := some (opts.blobAccessConditions.getD ()),
            parallelism := opts.parallelism },
        events := [DownloadEvent.getProperties] ++ (downloadTasks 0 L bs).map
          (fun t => .rangedRead t.reqOffset t.reqCount),
        outcome := none, resolvedCount := L, tasks := downloadTasks 0 L bs } := by
    simp only [DownloadBlobToBuffer, mkDownloadErr]
    rw [← hbs]
    rw [if_neg (by omega : ¬ opts.blockSize.getD 0 < 0)]
    norm_num
    rw [if_neg (by omega : ¬ L < 0), if_neg (by omega : ¬ bufferLen < L)]
  have htasks := downloadTasks_zero_closed L bs hbspos (le_of_lt hL)
  have hmemlt : ∀ k : Nat, k ∈ List.range n → min (bs * (k : Int)) L = bs * (k : Int) := by
    intro k hk
    have hklt : (k : Int) < jsCeilDiv L bs := by
      have := List.mem_range.mp hk
      omega
    have := (lt_jsCeilDiv_iff hbspos (k : Int)).mp hklt
    have hcomm : (k : Int) * bs = bs * (k : Int) := by ring
    exact min_eq_left (by omega)
  refine ⟨by rw [hred]; try rfl, by rw [hred]; try rfl, by rw [hred]; try rfl, ?_, ?_, ?_, ?_, ?_⟩
  · rw [hred]
    dsimp only
    rw [htasks, hn]
  · rw [hred]
    dsimp only
    rw [htasks]
    simp [hn]
  · rw [hred]
    dsimp only
    rw [htasks, ← hn, List.map_map]
    have hcong : (List.range n).map ((fun t : DownloadTask => t.bufEnd - t.bufStart) ∘
        (fun k : Nat =>
          ({ reqOffset := bs * (k : Int),
             reqCount := min (bs * ((k : Int) + 1)) L - bs * (k : Int) + 1,
             bufStart := bs * (k : Int),
             bufEnd := min (bs * ((k : Int) + 1)) L } : DownloadTask))) =
        (List.range n).map (fun k : Nat =>
          min (bs * ((k : Int) + 1)) L - min (bs * (k : Int)) L) := by
      apply List.map_congr_left
      intro k hk
      simp only [Function.comp]
      rw [hmemlt k hk]
    rw [hcong]
    have htel := list_telescope_sum (fun k : Nat => min (bs * (k : Int)) L) n
    have hshape : (List.range n).map (fun k : Nat =>
        min (bs * ((k : Int) + 1)) L - min (bs * (k : Int)) L) =
        (List.range n).map (fun k : Nat =>
          min (bs * (((k + 1 : Nat)) : Int)) L - min (bs * (k : Int)) L) := by
      apply List.map_congr_left
      intro k _
      have : (((k + 1 : Nat)) : Int) = (k : Int) + 1 := by push_cast; ring
      rw [this]
    rw [hshape, htel]
    have hn' : min (bs * ((n : Int))) L = L := by
      apply min_eq_right
      rw [hncast]
      have := (jsCeilDiv_le_iff hbspos (jsCeilDiv L bs)).mp le_rfl
      have hcomm : jsCeilDiv L bs * bs = bs * jsCeilDiv L bs := by ring
      omega
    have h0 : min (bs * ((0 : Nat) : Int)) L = 0 := by
      norm_num
      omega
    rw [hn', h0]
    omega
  · intro x
    constructor
    · rintro ⟨hx0, hxL⟩
      have hbne : bs ≠ 0 := by omega
      refine ⟨(x / bs).toNat, ?_, ?_, ?_⟩
      · have hdiv0 : 0 ≤ x / bs := Int.ediv_nonneg hx0 (by omega)
        have hlt : x / bs < jsCeilDiv L bs := by
          rw [Int.ediv_lt_iff_lt_mul hbspos]
          have := (jsCeilDiv_le_iff hbspos (jsCeilDiv L bs)).mp le_rfl
          have hcomm : jsCeilDiv L bs * bs = bs * jsCeilDiv L bs := by ring
          omega
        omega
      · have hmod0 := Int.emod_nonneg x hbne
        have := Int.ediv_add_emod x bs
        have hcast : (((x / bs).toNat : Int)) = x / bs := by
          have : 0 ≤ x / bs := Int.ediv_nonneg hx0 (by omega)
          omega
        rw [hcast]
        omega
      · apply lt_min
        · have hmodlt := Int.emod_lt_of_pos x hbspos
          have := Int.ediv_add_emod x bs
          have hcast : (((x / bs).toNat : Int)) = x / bs := by
            have : 0 ≤ x / bs := Int.ediv_nonneg hx0 (by omega)
            omega
          rw [hcast]
          have hdistrib : bs * (x / bs + 1) = bs * (x / bs) + bs := by ring
          omega
        · exact hxL
    · rintro ⟨k, hkn, hlo, hhi⟩
      have hknonneg : (0 : Int) ≤ bs * (k : Int) := by positivity
      have hhiL : x < L := lt_of_lt_of_le hhi (min_le_right _ _)
      exact ⟨le_trans hknonneg hlo, hhiL⟩
  · intro j k hjk hkn
    have hstep : bs * ((j : Int) + 1) ≤ bs * (k : Int) := by
      apply mul_le_mul_of_nonneg_left _ (by omega)
      have : ((j : Int)) + 1 ≤ (k : Int) := by
        have := hjk
        omega
      exact this
    exact le_trans (min_le_left _ _) hstep

theorem download_full_blob_partition_witness :
    (DownloadBlobToBuffer 0 0 5 5 { blockSize := some 2 }).outcome = none ∧
    (DownloadBlobToBuffer 0 0 5 5 { blockSize := some 2 }).resolvedCount = 5 ∧
    (DownloadBlobToBuffer 0 0 5 5 { blockSize := some 2 }).events.head? =
      some DownloadEvent.getProperties ∧
    (DownloadBlobToBuffer 0 0 5 5 { blockSize := some 2 }).tasks =
      (List.range 3).map (fun k : Nat =>
        { reqOffset := 2 * (k : Int),
          reqCount := min (2 * ((k : Int) + 1)) 5 - 2 * (k : Int) + 1,
          bufStart := 2 * (k : Int), bufEnd := min (2 * ((k : Int) + 1)) 5 }) ∧
    (DownloadBlobToBuffer 0 0 5 5 { blockSize := some 2 }).tasks.length = 3 ∧
    (((DownloadBlobToBuffer 0 0 5 5 { blockSize := some 2 }).tasks.map
        (fun t => t.bufEnd - t.bufStart)).sum = 5) ∧
    (∀ x : Int, (0 ≤ x ∧ x < 5) ↔
      ∃ k : Nat, k < 3 ∧ 2 * (k : Int) ≤ x ∧ x < min (2 * ((k : Int) + 1)) 5) ∧
    (∀ j k : Nat, j < k → k < 3 → min (2 * ((j : Int) + 1)) 5 ≤ 2 * (k : Int)) :=
  download_full_blob_partition 5 5 2 { blockSize := some 2 } 3
    (by decide) (by decide) (by decide) (by decide) (by decide)
